import Mathlib

/-!
Shallow embedding of the scanner session controller of the cortexDecoder
repository.

Two source files are embedded:
 - `src/App.tsx` — the continuous live-switch variant: the selected backend is
   always running while the screen is mounted; changing the selection re-runs a
   React effect that stops everything and starts the newly selected backend.
 - `src/unnamed/part_000` — the explicit-lifecycle variant with screen states
   idle / scanning / result and a start button.

External SDK calls (CDLicense, CDCamera, CDDecoder, the vision-camera
primitives) are collaborators: the embedding records each call the controller
issues in a chronological trace (`NCall`) and models their outcomes by explicit
oracle parameters (`activateOk` for the license-activation network call,
`failAt` for native teardown calls that may throw inside the catch-all of the
stop routine).  Thrown JavaScript errors are modelled with `Except`; a function
whose body is wrapped in a catch-all is total.
-/

namespace CortexDecoder

/-- `type ScannerType = 'cortex' | 'vision'` (both variants). -/
inductive ScannerType where
  | cortex
  | vision
deriving DecidableEq, Repr

/-- `type ScreenState = 'idle' | 'scanning' | 'result'` (part_000). -/
inductive ScreenState where
  | idle
  | scanning
  | result
deriving DecidableEq, Repr

/-- The two environment variables read by `ensureLicenseActivated`:
`EXPO_PUBLIC_CORTEX_CUSTOMER_ID` and `EXPO_PUBLIC_CORTEX_LICENSE_KEY`. -/
structure Env where
  customerId : Option String
  licenseKey : Option String
deriving DecidableEq, Repr

/-- Native SDK calls the controller can issue, recorded chronologically. -/
inductive NCall where
  | setCustomerId (cid : String)
  | activateLicense (key : String)
  | addListener
  | removeListener
  | startCamera
  | startPreview
  | setVideoCapturing (b : Bool)
  | setDecoding (b : Bool)
  | stopPreview
  | stopCamera
deriving DecidableEq, Repr

/-- Errors thrown on the cortex start path: the missing-license-key throw in
`ensureLicenseActivated`, and a rejection of `CDLicense.activateLicense`. -/
inductive CErr where
  | missingCredential
  | activationError
deriving DecidableEq, Repr

/-- Fallback used when `EXPO_PUBLIC_CORTEX_CUSTOMER_ID` is unset. -/
def defaultCustomerId : String := "ReplaceExpirationLib"

/-- `ensureLicenseActivated` (App.tsx lines 60-74; identical in part_000 lines
64-76 up to the error message).  Input: the environment, the outcome of the
`CDLicense.activateLicense` network call (`activateOk`), and the current value
of `licenseActivatedRef.current`.  Output: the new value of the flag, the
outcome (`.error e` models a throw), and the SDK calls issued, in order.
`if (!licenseKey) throw` is a JS falsy test: it fires both when the variable
is unset (`none`) and when it is the empty string. -/
def ensureLicenseActivated (env : Env) (activateOk : Bool) (activated : Bool) :
    Bool × Except CErr Unit × List NCall :=
  if activated then (true, .ok (), [])
  else
    match env.licenseKey with
    | none => (false, .error .missingCredential, [])
    | some key =>
      if key = "" then (false, .error .missingCredential, [])
      else
        let cid := env.customerId.getD defaultCustomerId
        if activateOk then
          (true, .ok (), [.setCustomerId cid, .activateLicense key])
        else
          (false, .error .activationError, [.setCustomerId cid, .activateLicense key])

/-- `startCortex` (App.tsx lines 76-94; same call sequence in part_000 lines
78-98), run to completion with the single `await` treated as one step.  Inputs
include the `licenseActivatedRef` and `subscriptionRef` contents; outputs the
new ref contents, the outcome, and the calls issued.  On a throw inside
`ensureLicenseActivated` the function aborts before the listener attach and
before any camera call. -/
def startCortex (env : Env) (activateOk : Bool) (activated : Bool)
    (subscription : Bool) : Bool × Bool × Except CErr Unit × List NCall :=
  match ensureLicenseActivated env activateOk activated with
  | (act, .error e, tr) => (act, subscription, .error e, tr)
  | (act, .ok _, tr) =>
    let attach : Bool × List NCall :=
      if subscription then (true, []) else (true, [.addListener])
    (act, attach.fst, .ok (),
      tr ++ attach.snd ++
        [.startCamera, .startPreview, .setVideoCapturing true, .setDecoding true])

/-- The four native teardown calls inside the `try` block of
`stopAllCameras` / `stopAll`, in source order. -/
def stopTryCalls : List NCall :=
  [.setDecoding false, .setVideoCapturing false, .stopPreview, .stopCamera]

/-- `stopAllCameras` (App.tsx lines 96-106) = `stopAll` (part_000 lines
104-115).  `failAt = some i` means the `i`-th native teardown call throws; the
surrounding catch-all swallows the error, so the function is total.  The
subscription is then removed (when present) and the ref cleared.  Returns the
new `subscriptionRef` content and the calls that completed. -/
def stopAll (failAt : Option Nat) (subscription : Bool) : Bool × List NCall :=
  let tried : List NCall :=
    match failAt with
    | none => stopTryCalls
    | some i => stopTryCalls.take i
  (false, tried ++ if subscription then [.removeListener] else [])

/-- Status enumeration of a cortex decode result
(`CDResult.CDDecodeStatus`); the listener only compares against `success`. -/
inductive CDDecodeStatus where
  | success
  | failure
deriving DecidableEq, Repr

/-- One element of the batch delivered to the `onDecodeResult` listener. -/
structure CDResultT where
  status : CDDecodeStatus
  barcodeData : String
deriving DecidableEq, Repr

/-- Body of the `onDecodeResult` listener in App.tsx lines 82-87: if the first
element's status is `success`, `setLastResult(results[0].barcodeData)`;
otherwise the state is untouched.  Returns the new `lastResult`. -/
def onDecodeResult (results : List CDResultT) (lastResult : String) : String :=
  match results with
  | [] => lastResult
  | r :: _ => if r.status = .success then r.barcodeData else lastResult

/-- `onCodeScanned` in App.tsx lines 49-53: when the batch is non-empty,
`setLastResult(codes[0].value ?? '')`.  A code's `value` is optional. -/
def onCodeScanned (codes : List (Option String)) (lastResult : String) : String :=
  match codes with
  | [] => lastResult
  | c :: _ => c.getD ""

/-- The visible result of App.tsx line 214: the result box renders exactly when
`lastResult` is non-empty (`!!lastResult && ...`). -/
def displayedResult (lastResult : String) : Option String :=
  if lastResult = "" then none else some lastResult

/-- Number of `activateLicense` calls in a trace. -/
def countActivate (tr : List NCall) : Nat :=
  tr.countP fun c =>
    match c with
    | .activateLicense _ => true
    | _ => false

/-- Outcome test for the embedded `Except` results. -/
def isOk (r : Except CErr Unit) : Bool :=
  match r with
  | .ok _ => true
  | .error _ => false

/-- `ensureLicenseActivated` invoked `n` times in sequence, each time with a
succeeding activation call (valid credentials).  Returns the final flag, the
concatenated trace, and whether every invocation returned success. -/
def ensureIter (env : Env) : Nat → Bool → Bool × List NCall × Bool
  | 0, activated => (activated, [], true)
  | n + 1, activated =>
    match ensureLicenseActivated env true activated with
    | (act, r, tr) =>
      match ensureIter env n act with
      | (fin, tr2, allOk) => (fin, tr ++ tr2, isOk r && allOk)

/-- React state and cortex refs of the explicit-lifecycle variant
(part_000) that the start button touches. -/
structure BSess where
  state : ScreenState
  result : String
  activated : Bool
  subscription : Bool
deriving DecidableEq, Repr

/-- The start button's `onPress` in part_000 lines 176-189: `setResult('')`,
`setState('scanning')`, then — only for the cortex selection — `await
startCortex()`, whose throw escapes the handler uncaught (no rollback). -/
def pressStart (env : Env) (activateOk : Bool) (scannerType : ScannerType)
    (s : BSess) : BSess × Except CErr Unit × List NCall :=
  let s1 : BSess := { s with result := "", state := .scanning }
  match scannerType with
  | .vision => (s1, .ok (), [])
  | .cortex =>
    match startCortex env activateOk s1.activated s1.subscription with
    | (act, sub, r, tr) =>
      ({ s1 with activated := act, subscription := sub }, r, tr)

/-!
Interleaving model of the continuous variant (App.tsx `ScannerScreen`).

The spec's scheduling model is a single cooperative UI thread where each
genuine asynchronous boundary is an interleaving point.  The only such
boundary on the start path is the `CDLicense.activateLicense` network call:
everything from the effect body up to that `await` runs synchronously, and the
continuation after it (set the flag, attach the listener, issue the four
camera-start calls) runs as one block when the promise settles.  A suspended
`startCortex` is a `pending` entry carrying the id of the effect run that
created it; the `mounted` flag captured by that run is `true` exactly when the
run is still the current one and the screen is still mounted.  Note that the
source consults `mounted` only at the synchronous point between
`stopAllCameras()` and `startCortex()` — before the suspension — so the
resolution continuation below performs no guard check, exactly as the source.
-/

/-- Whole-system state of the continuous variant: React state
(`scannerType`, `lastResult`, permission flags), refs (`subscriptionRef`,
`licenseActivatedRef`), the effect machinery (current run id, pending
suspended starts, mounted), the native cortex pipeline, and the call trace. -/
structure Sys where
  scannerType : ScannerType
  lastResult : String
  androidPermission : Bool
  hasPermission : Bool
  hasDevice : Bool
  subscription : Bool
  activated : Bool
  pending : List Nat
  curRun : Nat
  mounted : Bool
  cortexActive : Bool
  trace : List NCall
deriving DecidableEq, Repr

/-- Overall permission readiness (App.tsx line 155):
`androidPermission && hasPermission`. -/
def permissionOk (s : Sys) : Bool :=
  s.androidPermission && s.hasPermission

/-- The screen renders only the blocking permission message
(App.tsx lines 155-161). -/
def showsBlockingMessage (s : Sys) : Bool :=
  !permissionOk s

/-- The vision backend is active exactly when its declarative `<Camera>` with
`isActive={true}` is mounted: screen mounted, vision selected, permission
granted (otherwise only the blocking message renders) and a back device
present (App.tsx lines 163-177). -/
def visionActive (s : Sys) : Bool :=
  s.mounted && (if s.scannerType = .vision then true else false)
    && permissionOk s && s.hasDevice

/-- `stopAllCameras()` as issued by the effect machinery (native teardown
succeeding): clears the cortex pipeline, removes and clears the subscription,
and appends the teardown calls to the trace. -/
def sysStopAll (s : Sys) : Sys :=
  { s with
    cortexActive := false
    subscription := false
    trace := s.trace ++ stopTryCalls ++
      if s.subscription then [.removeListener] else [] }

/-- The tail of `startCortex` after `ensureLicenseActivated` has succeeded:
attach the listener unless one is attached, then issue the four camera-start
calls; the native cortex pipeline is then running. -/
def sysCompleteCortexStart (s : Sys) : Sys :=
  { s with
    subscription := true
    cortexActive := true
    trace := s.trace ++ (if s.subscription then [] else [.addListener]) ++
      [.startCamera, .startPreview, .setVideoCapturing true, .setDecoding true] }

/-- Body of the `[scannerType]` effect (App.tsx lines 131-143), run
synchronously up to the first genuine suspension: `stopAllCameras()`, the
(always-true at this point) `mounted` test, and for the cortex selection the
prefix of `startCortex` up to `await CDLicense.activateLicense`.  With the
flag already set the whole of `startCortex` completes in this step; with no
usable license key (unset, or the falsy empty string) the throw aborts the
start with nothing issued; otherwise the
customer id is set, the activation call goes out, and a pending continuation
tagged with this run's id is recorded. -/
def sysRunEffect (env : Env) (s : Sys) : Sys :=
  match s.scannerType with
  | .vision => sysStopAll s
  | .cortex =>
    if s.activated then sysCompleteCortexStart (sysStopAll s)
    else
      match env.licenseKey with
      | none => sysStopAll s
      | some key =>
        if key = "" then sysStopAll s
        else
          { sysStopAll s with
            pending := s.pending ++ [s.curRun]
            trace := (sysStopAll s).trace ++
              [.setCustomerId (env.customerId.getD defaultCustomerId),
                .activateLicense key] }

/-- Mounting the screen: fresh refs and state (`licenseActivatedRef` and
`subscriptionRef` start empty, `lastResult` empty), the given permission
outcome and backend selection, then the first run of the `[scannerType]`
effect.  The effect runs regardless of the permission outcome: React runs
effects even when the render took the early blocking-message return. -/
def mountScreen (env : Env) (android hasPerm hasDev : Bool)
    (t : ScannerType) : Sys :=
  sysRunEffect env
    { scannerType := t
      lastResult := ""
      androidPermission := android
      hasPermission := hasPerm
      hasDevice := hasDev
      subscription := false
      activated := false
      pending := []
      curRun := 0
      mounted := true
      cortexActive := false
      trace := [] }

/-- Environment events interleaved with the controller: a press of a backend
button, settlement of a pending activation call, delivery of a cortex decode
batch or of vision codes, and screen unmount. -/
inductive Act where
  | pressSwitch (t : ScannerType)
  | resolveActivation (ok : Bool)
  | cortexBatch (results : List CDResultT)
  | visionCodes (codes : List (Option String))
  | unmount
deriving DecidableEq, Repr

/-- One scheduler step of the continuous variant.
  * `pressSwitch t` (App.tsx lines 192-195 / 205-208): `setLastResult('')`,
    `setScannerType(t)`.  When the selection actually changes, the previous
    effect run's cleanup executes (its `mounted` becomes stale — modelled by
    bumping `curRun` — and `stopAllCameras()` runs), then the effect re-runs.
  * `resolveActivation ok`: the oldest pending `activateLicense` promise
    settles.  On success the continuation of `startCortex` runs with no guard
    check, as in the source; on rejection the error escapes as an unhandled
    rejection and nothing else happens.
  * `cortexBatch` is applied exactly when the decode listener is attached;
    `visionCodes` exactly when the vision camera is active.
  * `unmount`: the effect cleanup runs (App.tsx lines 145-148). -/
def sysStep (env : Env) (s : Sys) (a : Act) : Sys :=
  match a with
  | .pressSwitch t =>
    if s.mounted then
      if s.scannerType = t then { s with lastResult := "" }
      else
        sysRunEffect env
          (sysStopAll
            { s with lastResult := "", scannerType := t, curRun := s.curRun + 1 })
    else s
  | .resolveActivation ok =>
    match s.pending with
    | [] => s
    | _ :: rest =>
      if ok then sysCompleteCortexStart { s with pending := rest, activated := true }
      else { s with pending := rest }
  | .cortexBatch results =>
    if s.subscription then
      { s with lastResult := onDecodeResult results s.lastResult }
    else s
  | .visionCodes codes =>
    if visionActive s then
      { s with lastResult := onCodeScanned codes s.lastResult }
    else s
  | .unmount =>
    if s.mounted then sysStopAll { s with mounted := false } else s

/-- Run a list of events. -/
def sysRun (env : Env) (s : Sys) : List Act → Sys
  | [] => s
  | a :: rest => sysRun env (sysStep env s a) rest

/-- A schedule is quiescent when no backend switch and no unmount happens
while an asynchronous cortex start is still suspended on its activation
call. -/
def actOk (s : Sys) (a : Act) : Bool :=
  match a with
  | .pressSwitch _ => s.pending = []
  | .unmount => s.pending = []
  | _ => true

/-- Every event of the schedule is quiescent in the state it fires in. -/
def actsOk (env : Env) (s : Sys) : List Act → Bool
  | [] => true
  | a :: rest => actOk s a && actsOk env (sysStep env s a) rest

/-- No backend resources survive: cortex pipeline off, no decode listener, no
suspended start. -/
def Cleared (s : Sys) : Prop :=
  s.cortexActive = false ∧ s.subscription = false ∧ s.pending = []

/-- Inductive invariant of quiescent schedules: whenever the vision backend is
selected, and whenever the screen is unmounted, all cortex resources are
cleared. -/
def MutexInv (s : Sys) : Prop :=
  (s.scannerType = .vision → Cleared s) ∧ (s.mounted = false → Cleared s)

instance (s : Sys) : Decidable (Cleared s) := by
  unfold Cleared; infer_instance

instance (s : Sys) : Decidable (MutexInv s) := by
  unfold MutexInv; infer_instance

/-- Is this call a listener attach? -/
def isAdd (c : NCall) : Bool :=
  c = .addListener

/-- Is this call a listener removal? -/
def isRem (c : NCall) : Bool :=
  c = .removeListener

/-- Trace-accurate subscription accounting: listener removals never outnumber
attaches, and the surplus is exactly the content of `subscriptionRef` — hence
at most one decode-event listener is ever alive. -/
def SubAccounted (s : Sys) : Prop :=
  s.trace.countP isAdd = s.trace.countP isRem + (if s.subscription then 1 else 0)

instance (s : Sys) : Decidable (SubAccounted s) := by
  unfold SubAccounted; infer_instance

/-- With no license key in the environment, the cortex backend can never get
anywhere: the flag stays false, no start is ever suspended, the pipeline is
never running, and no `startCamera` call ever appears in the trace. -/
def NoKeyInv (s : Sys) : Prop :=
  s.activated = false ∧ s.pending = [] ∧ s.cortexActive = false
    ∧ NCall.startCamera ∉ s.trace

instance (s : Sys) : Decidable (NoKeyInv s) := by
  unfold NoKeyInv; infer_instance

/-- Sample environment: no customer id set, a license key present. -/
def sampleEnv : Env := ⟨none, some "KEY"⟩

/-- Fresh mount with all permissions granted, cortex selected: activation is
in flight (`pending = [0]`). -/
def sampleMount : Sys := mountScreen sampleEnv true true true .cortex

/-- Fresh mount with the Android runtime permission denied, cortex selected. -/
def sampleDeniedMount : Sys := mountScreen sampleEnv false true true .cortex

/-! ## Helper lemmas -/

/-- Once the flag is set, every further `ensureLicenseActivated` iteration is
an immediate success that issues no SDK call at all. -/
theorem ensureIter_done (env : Env) :
    ∀ m : Nat, ensureIter env m true = (true, [], true) := by
  intro m
  induction m with
  | zero => rfl
  | succ k ih => simp [ensureIter, ensureLicenseActivated, isOk, ih]

/-- `sysRunEffect` only appends to the trace. -/
theorem sysRunEffect_trace (env : Env) (s : Sys) :
    ∃ tl, (sysRunEffect env s).trace = s.trace ++ tl := by
  cases hsc : s.scannerType <;>
    simp only [sysRunEffect, hsc]
  case vision =>
    exact ⟨stopTryCalls ++ if s.subscription then [.removeListener] else [],
      by simp [sysStopAll]⟩
  case cortex =>
    by_cases ha : s.activated = true
    · refine ⟨(stopTryCalls ++ if s.subscription then [.removeListener] else [])
        ++ [.addListener, .startCamera, .startPreview,
          .setVideoCapturing true, .setDecoding true], ?_⟩
      simp [ha, sysCompleteCortexStart, sysStopAll]
    · cases hk : env.licenseKey with
      | none =>
        exact ⟨stopTryCalls ++ if s.subscription then [.removeListener] else [],
          by simp [ha, sysStopAll]⟩
      | some key =>
        by_cases hke : key = ""
        · exact ⟨stopTryCalls ++ if s.subscription then [.removeListener] else [],
            by simp [ha, hke, sysStopAll]⟩
        · refine ⟨(stopTryCalls ++ if s.subscription then [.removeListener] else [])
            ++ [.setCustomerId (env.customerId.getD defaultCustomerId),
              .activateLicense key], ?_⟩
          simp [ha, hk, hke, sysStopAll]

/-- `sysRunEffect` changes neither the selection nor mountedness. -/
theorem sysRunEffect_frame (env : Env) (s : Sys) :
    (sysRunEffect env s).scannerType = s.scannerType
      ∧ (sysRunEffect env s).mounted = s.mounted := by
  cases hsc : s.scannerType <;>
    simp only [sysRunEffect, hsc]
  case vision => exact ⟨hsc ▸ rfl, rfl⟩
  case cortex =>
    by_cases ha : s.activated = true
    · simp [ha, sysCompleteCortexStart, sysStopAll, hsc]
    · cases hk : env.licenseKey with
      | none => simp [ha, hsc, sysStopAll]
      | some key =>
        by_cases hke : key = "" <;> simp [ha, hk, hke, hsc, sysStopAll]

/-- The effect body preserves the mutual-exclusion invariant when it starts
from a state with no pending start and the screen mounted. -/
theorem mutexInv_runEffect (env : Env) (s : Sys)
    (hp : s.pending = []) (hm : s.mounted = true) :
    MutexInv (sysRunEffect env s) := by
  cases hsc : s.scannerType with
  | vision =>
    simp only [sysRunEffect, hsc]
    exact ⟨fun _ => ⟨rfl, rfl, by simpa [sysStopAll] using hp⟩,
      fun hfalse => by simp [sysStopAll, hm] at hfalse⟩
  | cortex =>
    simp only [sysRunEffect, hsc]
    by_cases ha : s.activated = true
    · simp only [ha, if_true]
      refine ⟨fun hv => ?_, fun hfalse => ?_⟩
      · simp [sysCompleteCortexStart, sysStopAll, hsc] at hv
      · simp [sysCompleteCortexStart, sysStopAll, hm] at hfalse
    · simp only [ha, if_false, Bool.not_eq_true] at *
      cases hk : env.licenseKey with
      | none =>
        simp only [hk]
        refine ⟨fun hv => ?_, fun hfalse => ?_⟩
        · simp [sysStopAll, hsc] at hv
        · simp [sysStopAll, hm] at hfalse
      | some key =>
        simp only [hk]
        by_cases hke : key = ""
        · rw [if_pos hke]
          refine ⟨fun hv => ?_, fun hfalse => ?_⟩
          · simp [sysStopAll, hsc] at hv
          · simp [sysStopAll, hm] at hfalse
        · rw [if_neg hke]
          refine ⟨fun hv => ?_, fun hfalse => ?_⟩
          · simp [sysStopAll, hsc] at hv
          · simp [sysStopAll, hm] at hfalse

/-- A quiescent step preserves the mutual-exclusion invariant. -/
theorem mutexInv_step (env : Env) (s : Sys) (a : Act)
    (hok : actOk s a = true) (h : MutexInv s) : MutexInv (sysStep env s a) := by
  obtain ⟨hv, hm⟩ := h
  cases a with
  | pressSwitch t =>
    simp only [actOk, decide_eq_true_eq] at hok
    by_cases hmt : s.mounted = true
    · by_cases htt : s.scannerType = t
      · have hstep : sysStep env s (.pressSwitch t) = { s with lastResult := "" } := by
          simp [sysStep, hmt, htt]
        rw [hstep]
        exact ⟨fun h2 => hv h2, fun h2 => hm h2⟩
      · have hstep : sysStep env s (.pressSwitch t)
            = sysRunEffect env (sysStopAll
                { s with lastResult := "", scannerType := t, curRun := s.curRun + 1 }) := by
          simp [sysStep, hmt, htt]
        rw [hstep]
        exact mutexInv_runEffect env _ hok hmt
    · have hstep : sysStep env s (.pressSwitch t) = s := by simp [sysStep, hmt]
      rw [hstep]
      exact ⟨hv, hm⟩
  | resolveActivation ok =>
    cases hp : s.pending with
    | nil =>
      have hstep : sysStep env s (.resolveActivation ok) = s := by
        cases ok <;> simp [sysStep, hp]
      rw [hstep]
      exact ⟨hv, hm⟩
    | cons p rest =>
      have hsc : s.scannerType = .cortex := by
        cases hsc : s.scannerType
        · rfl
        · have h3 := (hv hsc).2.2
          rw [hp] at h3
          cases h3
      have hmt : s.mounted = true := by
        cases hmb : s.mounted
        · have h3 := (hm hmb).2.2
          rw [hp] at h3
          cases h3
        · rfl
      cases ok with
      | true =>
        have hstep : sysStep env s (.resolveActivation true)
            = sysCompleteCortexStart { s with pending := rest, activated := true } := by
          simp [sysStep, hp]
        rw [hstep]
        refine ⟨fun hv2 => ?_, fun hm2 => ?_⟩
        · have hvv : s.scannerType = ScannerType.vision := hv2
          rw [hsc] at hvv
          cases hvv
        · have hmm : s.mounted = false := hm2
          rw [hmt] at hmm
          cases hmm
      | false =>
        have hstep : sysStep env s (.resolveActivation false)
            = { s with pending := rest } := by
          simp [sysStep, hp]
        rw [hstep]
        refine ⟨fun hv2 => ?_, fun hm2 => ?_⟩
        · have hvv : s.scannerType = ScannerType.vision := hv2
          rw [hsc] at hvv
          cases hvv
        · have hmm : s.mounted = false := hm2
          rw [hmt] at hmm
          cases hmm
  | cortexBatch results =>
    by_cases hsub : s.subscription = true
    · have hstep : sysStep env s (.cortexBatch results)
          = { s with lastResult := onDecodeResult results s.lastResult } := by
        simp [sysStep, hsub]
      rw [hstep]
      exact ⟨fun h2 => hv h2, fun h2 => hm h2⟩
    · have hstep : sysStep env s (.cortexBatch results) = s := by
        simp [sysStep, hsub]
      rw [hstep]
      exact ⟨hv, hm⟩
  | visionCodes codes =>
    by_cases hva : visionActive s = true
    · have hstep : sysStep env s (.visionCodes codes)
          = { s with lastResult := onCodeScanned codes s.lastResult } := by
        simp [sysStep, hva]
      rw [hstep]
      exact ⟨fun h2 => hv h2, fun h2 => hm h2⟩
    · have hstep : sysStep env s (.visionCodes codes) = s := by
        simp [sysStep, hva]
      rw [hstep]
      exact ⟨hv, hm⟩
  | unmount =>
    simp only [actOk, decide_eq_true_eq] at hok
    by_cases hmt : s.mounted = true
    · have hstep : sysStep env s .unmount
          = sysStopAll { s with mounted := false } := by
        simp [sysStep, hmt]
      rw [hstep]
      exact ⟨fun _ => ⟨rfl, rfl, hok⟩, fun _ => ⟨rfl, rfl, hok⟩⟩
    · have hstep : sysStep env s .unmount = s := by simp [sysStep, hmt]
      rw [hstep]
      exact ⟨hv, hm⟩

/-- The state right after mounting satisfies the mutual-exclusion invariant,
whatever the permission outcome and initial selection. -/
theorem mutexInv_mount (env : Env) (android hasPerm hasDev : Bool)
    (t : ScannerType) : MutexInv (mountScreen env android hasPerm hasDev t) := by
  unfold mountScreen
  exact mutexInv_runEffect env _ rfl rfl

/-- Along any quiescent schedule, every intermediate state satisfies the
mutual-exclusion invariant. -/
theorem mutexInv_run (env : Env) :
    ∀ (acts : List Act) (s : Sys), actsOk env s acts = true → MutexInv s →
      ∀ n : Nat, MutexInv (sysRun env s (acts.take n)) := by
  intro acts
  induction acts with
  | nil =>
    intro s _ h n
    simpa [sysRun, List.take_nil] using h
  | cons a rest ih =>
    intro s hok h n
    have hok2 : actOk s a = true ∧ actsOk env (sysStep env s a) rest = true := by
      simpa [actsOk, Bool.and_eq_true] using hok
    cases n with
    | zero => simpa [sysRun] using h
    | succ m =>
      have hteq : (a :: rest).take (m + 1) = a :: rest.take m := by
        simp [List.take_succ_cons]
      rw [hteq]
      have hrun : sysRun env s (a :: rest.take m)
          = sysRun env (sysStep env s a) (rest.take m) := rfl
      rw [hrun]
      exact ih (sysStep env s a) hok2.2 (mutexInv_step env s a hok2.1 h) m

/-- If the vision camera is mounted and active, vision is the selection. -/
theorem visionActive_sel (s : Sys) (h : visionActive s = true) :
    s.scannerType = .vision := by
  unfold visionActive at h
  cases hsc : s.scannerType
  · rw [hsc] at h
    simp at h
  · rfl

/-- A selection change first issues the complete native teardown sequence,
before anything else (in particular before any start call). -/
theorem switch_stops_first (env : Env) (s : Sys) (t : ScannerType)
    (hm : s.mounted = true) (hne : ¬s.scannerType = t) :
    ∃ tl, (sysStep env s (.pressSwitch t)).trace = s.trace ++ stopTryCalls ++ tl := by
  have hstep : sysStep env s (.pressSwitch t)
      = sysRunEffect env (sysStopAll
          { s with lastResult := "", scannerType := t, curRun := s.curRun + 1 }) := by
    simp [sysStep, hm, hne]
  rw [hstep]
  obtain ⟨tl2, htl2⟩ := sysRunEffect_trace env (sysStopAll
    { s with lastResult := "", scannerType := t, curRun := s.curRun + 1 })
  refine ⟨(if s.subscription then [.removeListener] else []) ++ tl2, ?_⟩
  rw [htl2]
  simp [sysStopAll]

/-! ## Claim C1 -/

/-- Claim C1 as stated is false on the code: switching from the cortex backend
to the vision backend while the cortex start is still awaiting its activation
call leaves the stale continuation free to run.  Concretely, after mounting
with cortex selected (activation pending), pressing VISION and then letting
the activation promise resolve yields a state in which the cortex pipeline is
running while the vision camera is simultaneously active, and a subsequent
cortex decode event is applied to state after the switch request. -/
theorem c1_counterexample :
    (sysRun sampleEnv sampleMount
      [.pressSwitch .vision, .resolveActivation true]).cortexActive = true
    ∧ visionActive (sysRun sampleEnv sampleMount
        [.pressSwitch .vision, .resolveActivation true]) = true
    ∧ (sysRun sampleEnv sampleMount [.pressSwitch .vision]).lastResult = ""
    ∧ (sysRun sampleEnv sampleMount
        [.pressSwitch .vision, .resolveActivation true,
          .cortexBatch [⟨.success, "LEAK"⟩]]).lastResult = "LEAK" := by
  exact ⟨rfl, rfl, rfl, rfl⟩

/-- Claim C1 (amended): provided no backend switch happens while an
asynchronous cortex start is still suspended on its activation call (and
likewise no unmount), at most one backend is active at every observed
instant: whenever the vision camera is active the cortex pipeline is off, and
whenever vision is the selection no cortex decode event is applied to state
(the listener has been removed by the switch).  Moreover every selection
change issues the full native teardown sequence before anything else. -/
theorem c1_mutual_exclusion_on_switch (env : Env)
    (android hasPerm hasDev : Bool) (t : ScannerType) (acts : List Act)
    (hok : actsOk env (mountScreen env android hasPerm hasDev t) acts = true) :
    (∀ n : Nat,
      (visionActive (sysRun env (mountScreen env android hasPerm hasDev t)
          (acts.take n)) = true
        → (sysRun env (mountScreen env android hasPerm hasDev t)
            (acts.take n)).cortexActive = false)
      ∧ ((sysRun env (mountScreen env android hasPerm hasDev t)
            (acts.take n)).scannerType = .vision
        → ∀ results : List CDResultT,
            (sysStep env (sysRun env (mountScreen env android hasPerm hasDev t)
                (acts.take n)) (.cortexBatch results)).lastResult
              = (sysRun env (mountScreen env android hasPerm hasDev t)
                  (acts.take n)).lastResult))
    ∧ (∀ (s2 : Sys) (u : ScannerType), s2.mounted = true → ¬s2.scannerType = u →
        ∃ tl, (sysStep env s2 (.pressSwitch u)).trace
          = s2.trace ++ stopTryCalls ++ tl) := by
  constructor
  · intro n
    obtain ⟨hv, _⟩ :=
      mutexInv_run env acts _ hok (mutexInv_mount env android hasPerm hasDev t) n
    constructor
    · intro hva
      exact (hv (visionActive_sel _ hva)).1
    · intro hsel results
      have hsub := (hv hsel).2.1
      have hstep : sysStep env
          (sysRun env (mountScreen env android hasPerm hasDev t) (acts.take n))
          (.cortexBatch results)
          = sysRun env (mountScreen env android hasPerm hasDev t) (acts.take n) := by
        simp [sysStep, hsub]
      rw [hstep]
  · intro s2 u hm2 hne
    exact switch_stops_first env s2 u hm2 hne

/-- Witness for C1 (amended) at a concrete quiescent schedule: resolve the
activation first, then switch to vision. -/
theorem c1_mutual_exclusion_on_switch_witness :
    actsOk sampleEnv sampleMount
      [.resolveActivation true, .pressSwitch .vision] = true
    ∧ (visionActive (sysRun sampleEnv sampleMount
          ([Act.resolveActivation true, Act.pressSwitch .vision].take 2)) = true
        → (sysRun sampleEnv sampleMount
            ([Act.resolveActivation true, Act.pressSwitch .vision].take 2)).cortexActive
            = false) :=
  ⟨by decide,
    ((c1_mutual_exclusion_on_switch sampleEnv true true true .cortex
      [.resolveActivation true, .pressSwitch .vision] (by decide)).1 2).1⟩

/-! ## Claim C5 -/

/-- Claim C5 as stated is false on the code: the `mounted` guard is read only
at the synchronous point before `startCortex()` begins, and nothing re-checks
it when the awaited activation resolves.  Concretely: after mounting with
cortex selected (activation in flight, recorded for effect run 0) and then
pressing VISION, the current effect run is 1 — the guard captured by run 0 is
stale — yet resolving the activation still applies the full start: the
listener is attached and the cortex camera pipeline starts. -/
theorem c5_counterexample :
    (sysRun sampleEnv sampleMount [.pressSwitch .vision]).pending = [0]
    ∧ (sysRun sampleEnv sampleMount [.pressSwitch .vision]).curRun = 1
    ∧ (sysRun sampleEnv sampleMount
        [.pressSwitch .vision, .resolveActivation true]).cortexActive = true
    ∧ (sysRun sampleEnv sampleMount
        [.pressSwitch .vision, .resolveActivation true]).subscription = true := by
  exact ⟨rfl, rfl, rfl, rfl⟩

/-- Claim C5 (amended): the mounted guard is consulted only once,
synchronously between the teardown and the point where the asynchronous start
begins — where it is always still true.  A start that has already begun
awaiting its activation call is therefore never aborted: when the call
resolves successfully, the continuation applies its full effect (flag set,
listener attached, camera pipeline started) even though the guard captured at
switch time is already false (torn down or re-switched). -/
theorem c5_stale_start_completes (env : Env) (s : Sys) (p : Nat)
    (rest : List Nat) (hp : s.pending = p :: rest)
    (hstale : s.mounted = false ∨ ¬p = s.curRun) :
    (sysStep env s (.resolveActivation true)).cortexActive = true
    ∧ (sysStep env s (.resolveActivation true)).subscription = true
    ∧ (sysStep env s (.resolveActivation true)).activated = true
    ∧ (sysStep env s (.resolveActivation true)).trace
        = s.trace ++ (if s.subscription then [] else [.addListener])
          ++ [.startCamera, .startPreview, .setVideoCapturing true,
              .setDecoding true] := by
  have hstep : sysStep env s (.resolveActivation true)
      = sysCompleteCortexStart { s with pending := rest, activated := true } := by
    simp [sysStep, hp]
  rw [hstep]
  exact ⟨rfl, rfl, rfl, by simp [sysCompleteCortexStart]⟩

/-- Witness for C5 (amended): the concrete stale configuration reached by
switching to vision while the mount-time cortex start is still suspended. -/
theorem c5_stale_start_completes_witness :
    (sysRun sampleEnv sampleMount [.pressSwitch .vision]).pending = [0]
    ∧ ((sysRun sampleEnv sampleMount [.pressSwitch .vision]).mounted = false
        ∨ ¬0 = (sysRun sampleEnv sampleMount [.pressSwitch .vision]).curRun)
    ∧ (sysStep sampleEnv (sysRun sampleEnv sampleMount [.pressSwitch .vision])
        (.resolveActivation true)).cortexActive = true :=
  ⟨rfl, Or.inr (by decide),
    (c5_stale_start_completes sampleEnv
      (sysRun sampleEnv sampleMount [.pressSwitch .vision]) 0 [] rfl
      (Or.inr (by decide))).1⟩

/-! ## Subscription accounting -/

theorem countP_isAdd_stopTry : stopTryCalls.countP isAdd = 0 := by decide

theorem countP_isRem_stopTry : stopTryCalls.countP isRem = 0 := by decide

theorem countP_isAdd_pend (cid key : String) :
    ([.setCustomerId cid, .activateLicense key] : List NCall).countP isAdd = 0 := by
  simp [List.countP_cons, List.countP_nil, isAdd]

theorem countP_isRem_pend (cid key : String) :
    ([.setCustomerId cid, .activateLicense key] : List NCall).countP isRem = 0 := by
  simp [List.countP_cons, List.countP_nil, isRem]

/-- `stopAllCameras` keeps the subscription accounting exact. -/
theorem subAccounted_stopAll (s : Sys) (h : SubAccounted s) :
    SubAccounted (sysStopAll s) := by
  unfold SubAccounted at h ⊢
  cases hsub : s.subscription with
  | true =>
    rw [hsub] at h
    simp at h
    simp [sysStopAll, hsub, List.countP_append, countP_isAdd_stopTry,
      countP_isRem_stopTry, List.countP_cons, List.countP_nil, isAdd, isRem]
    omega
  | false =>
    rw [hsub] at h
    simp at h
    simp [sysStopAll, hsub, List.countP_append, countP_isAdd_stopTry,
      countP_isRem_stopTry]
    omega

/-- Completing a cortex start keeps the subscription accounting exact. -/
theorem subAccounted_complete (s : Sys) (h : SubAccounted s) :
    SubAccounted (sysCompleteCortexStart s) := by
  unfold SubAccounted at h ⊢
  cases hsub : s.subscription with
  | true =>
    rw [hsub] at h
    simp [sysCompleteCortexStart, hsub, List.countP_append, List.countP_cons,
      List.countP_nil, isAdd, isRem] at *
    omega
  | false =>
    rw [hsub] at h
    simp [sysCompleteCortexStart, hsub, List.countP_append, List.countP_cons,
      List.countP_nil, isAdd, isRem] at *
    omega

/-- The effect body keeps the subscription accounting exact. -/
theorem subAccounted_runEffect (env : Env) (s : Sys) (h : SubAccounted s) :
    SubAccounted (sysRunEffect env s) := by
  cases hsc : s.scannerType with
  | vision =>
    simp only [sysRunEffect, hsc]
    exact subAccounted_stopAll s h
  | cortex =>
    simp only [sysRunEffect, hsc]
    by_cases ha : s.activated = true
    · simp only [ha, if_true]
      exact subAccounted_complete _ (subAccounted_stopAll s h)
    · rw [if_neg ha]
      cases hk : env.licenseKey with
      | none => exact subAccounted_stopAll s h
      | some key =>
        have h2 := subAccounted_stopAll s h
        simp only [hk]
        by_cases hke : key = ""
        · rw [if_pos hke]
          exact h2
        · rw [if_neg hke]
          unfold SubAccounted at h2 ⊢
          simp only [List.countP_append, countP_isAdd_pend, countP_isRem_pend]
          simpa using h2

/-- Every scheduler step keeps the subscription accounting exact. -/
theorem subAccounted_step (env : Env) (s : Sys) (a : Act)
    (h : SubAccounted s) : SubAccounted (sysStep env s a) := by
  cases a with
  | pressSwitch t =>
    by_cases hmt : s.mounted = true
    · by_cases htt : s.scannerType = t
      · have hstep : sysStep env s (.pressSwitch t) = { s with lastResult := "" } := by
          simp [sysStep, hmt, htt]
        rw [hstep]
        exact h
      · have hstep : sysStep env s (.pressSwitch t)
            = sysRunEffect env (sysStopAll
                { s with lastResult := "", scannerType := t, curRun := s.curRun + 1 }) := by
          simp [sysStep, hmt, htt]
        rw [hstep]
        exact subAccounted_runEffect env _ (subAccounted_stopAll _ h)
    · have hstep : sysStep env s (.pressSwitch t) = s := by simp [sysStep, hmt]
      rw [hstep]
      exact h
  | resolveActivation ok =>
    cases hp : s.pending with
    | nil =>
      have hstep : sysStep env s (.resolveActivation ok) = s := by
        cases ok <;> simp [sysStep, hp]
      rw [hstep]
      exact h
    | cons p rest =>
      cases ok with
      | true =>
        have hstep : sysStep env s (.resolveActivation true)
            = sysCompleteCortexStart { s with pending := rest, activated := true } := by
          simp [sysStep, hp]
        rw [hstep]
        exact subAccounted_complete _ h
      | false =>
        have hstep : sysStep env s (.resolveActivation false)
            = { s with pending := rest } := by
          simp [sysStep, hp]
        rw [hstep]
        exact h
  | cortexBatch results =>
    by_cases hsub : s.subscription = true
    · have hstep : sysStep env s (.cortexBatch results)
          = { s with lastResult := onDecodeResult results s.lastResult } := by
        simp [sysStep, hsub]
      rw [hstep]
      exact h
    · have hstep : sysStep env s (.cortexBatch results) = s := by
        simp [sysStep, hsub]
      rw [hstep]
      exact h
  | visionCodes codes =>
    by_cases hva : visionActive s = true
    · have hstep : sysStep env s (.visionCodes codes)
          = { s with lastResult := onCodeScanned codes s.lastResult } := by
        simp [sysStep, hva]
      rw [hstep]
      exact h
    · have hstep : sysStep env s (.visionCodes codes) = s := by
        simp [sysStep, hva]
      rw [hstep]
      exact h
  | unmount =>
    by_cases hmt : s.mounted = true
    · have hstep : sysStep env s .unmount = sysStopAll { s with mounted := false } := by
        simp [sysStep, hmt]
      rw [hstep]
      exact subAccounted_stopAll _ h
    · have hstep : sysStep env s .unmount = s := by simp [sysStep, hmt]
      rw [hstep]
      exact h

/-- The subscription accounting holds right after mount. -/
theorem subAccounted_mount (env : Env) (android hasPerm hasDev : Bool)
    (t : ScannerType) : SubAccounted (mountScreen env android hasPerm hasDev t) := by
  unfold mountScreen
  apply subAccounted_runEffect
  unfold SubAccounted
  simp

/-- The subscription accounting holds along every schedule, quiescent or
not. -/
theorem subAccounted_run (env : Env) :
    ∀ (acts : List Act) (s : Sys), SubAccounted s →
      SubAccounted (sysRun env s acts) := by
  intro acts
  induction acts with
  | nil => exact fun s h => h
  | cons a rest ih => exact fun s h => ih _ (subAccounted_step env s a h)

/-! ## Claim C8 -/

/-- Claim C8 as stated is false on the code: a cortex start that is still
suspended on its activation call at teardown time re-attaches the listener
when the call resolves after the unmount, and nothing ever removes it.
Concretely: mount with cortex selected (activation pending), unmount (cleanup
removes nothing — no listener yet), then let the activation resolve: the
screen is unmounted yet a live subscription exists. -/
theorem c8_counterexample :
    (sysRun sampleEnv sampleMount [.unmount, .resolveActivation true]).mounted = false
    ∧ (sysRun sampleEnv sampleMount
        [.unmount, .resolveActivation true]).subscription = true := by
  exact ⟨rfl, rfl⟩

/-- Claim C8 (amended): at most one decode-event listener is ever alive — on
every schedule the attach/removal counts in the trace balance to exactly the
current subscription, and calling the subscribe step while a listener is
already attached attaches nothing; the subscription is removed on every stop;
and — provided no cortex start is suspended at any switch or teardown — no
subscription survives an unmount.  (A start suspended across teardown
re-attaches a leaked listener, as the counterexample shows.) -/
theorem c8_single_subscription (env : Env) (android hasPerm hasDev : Bool)
    (t : ScannerType) (acts : List Act)
    (hok : actsOk env (mountScreen env android hasPerm hasDev t) acts = true) :
    (∀ acts2 : List Act,
      SubAccounted (sysRun env (mountScreen env android hasPerm hasDev t) acts2))
    ∧ (∀ (env2 : Env) (b act2 : Bool),
        (startCortex env2 b act2 true).snd.fst = true
        ∧ NCall.addListener ∉ (startCortex env2 b act2 true).snd.snd.snd)
    ∧ (∀ n : Nat,
        (sysRun env (mountScreen env android hasPerm hasDev t)
          (acts.take n)).mounted = false
        → (sysRun env (mountScreen env android hasPerm hasDev t)
            (acts.take n)).subscription = false) := by
  refine ⟨?_, ?_, ?_⟩
  · intro acts2
    exact subAccounted_run env acts2 _
      (subAccounted_mount env android hasPerm hasDev t)
  · intro env2 b act2
    cases hact : act2 with
    | true =>
      constructor <;> simp [startCortex, ensureLicenseActivated]
    | false =>
      cases hk : env2.licenseKey with
      | none =>
        constructor <;> simp [startCortex, ensureLicenseActivated, hk]
      | some key =>
        by_cases hke : key = ""
        · constructor <;> simp [startCortex, ensureLicenseActivated, hk, hke]
        · cases b with
          | true =>
            constructor <;> simp [startCortex, ensureLicenseActivated, hk, hke]
          | false =>
            constructor <;> simp [startCortex, ensureLicenseActivated, hk, hke]
  · intro n hunm
    have hinv :=
      mutexInv_run env acts _ hok (mutexInv_mount env android hasPerm hasDev t) n
    exact (hinv.2 hunm).2.1

/-- Witness for C8 (amended) at a concrete quiescent schedule: the activation
resolves before the unmount, and no subscription survives the teardown. -/
theorem c8_single_subscription_witness :
    actsOk sampleEnv sampleMount [.resolveActivation true, .unmount] = true
    ∧ (sysRun sampleEnv sampleMount
        ([Act.resolveActivation true, Act.unmount].take 2)).subscription = false :=
  ⟨by decide,
    (c8_single_subscription sampleEnv true true true .cortex
      [.resolveActivation true, .unmount] (by decide)).2.2 2 (by decide)⟩

/-! ## Missing-key invariant -/

/-- A camera-start call appears nowhere in a teardown segment. -/
theorem startCamera_not_stop (b : Bool) :
    NCall.startCamera ∉ stopTryCalls ++ (if b then [NCall.removeListener] else []) := by
  cases b <;> decide

theorem noKeyInv_stopAll (s : Sys) (h : NoKeyInv s) : NoKeyInv (sysStopAll s) := by
  obtain ⟨h1, h2, _, h4⟩ := h
  refine ⟨h1, h2, rfl, fun hmem => ?_⟩
  rcases List.mem_append.mp hmem with hm | hm
  · rcases List.mem_append.mp hm with hm2 | hm2
    · exact h4 hm2
    · exact absurd hm2 (by decide)
  · by_cases hsub : s.subscription = true
    · rw [if_pos hsub] at hm
      simp at hm
    · rw [if_neg hsub] at hm
      simp at hm

theorem noKeyInv_runEffect (env : Env) (s : Sys)
    (hk : env.licenseKey = none) (h : NoKeyInv s) :
    NoKeyInv (sysRunEffect env s) := by
  cases hsc : s.scannerType with
  | vision =>
    simp only [sysRunEffect, hsc]
    exact noKeyInv_stopAll s h
  | cortex =>
    have ha : ¬s.activated = true := by rw [h.1]; simp
    simp only [sysRunEffect, hsc]
    rw [if_neg ha, hk]
    exact noKeyInv_stopAll s h

theorem noKeyInv_step (env : Env) (s : Sys) (a : Act)
    (hk : env.licenseKey = none) (h : NoKeyInv s) :
    NoKeyInv (sysStep env s a) := by
  cases a with
  | pressSwitch t =>
    by_cases hmt : s.mounted = true
    · by_cases htt : s.scannerType = t
      · have hstep : sysStep env s (.pressSwitch t) = { s with lastResult := "" } := by
          simp [sysStep, hmt, htt]
        rw [hstep]
        exact h
      · have hstep : sysStep env s (.pressSwitch t)
            = sysRunEffect env (sysStopAll
                { s with lastResult := "", scannerType := t, curRun := s.curRun + 1 }) := by
          simp [sysStep, hmt, htt]
        rw [hstep]
        exact noKeyInv_runEffect env _ hk (noKeyInv_stopAll _ h)
    · have hstep : sysStep env s (.pressSwitch t) = s := by simp [sysStep, hmt]
      rw [hstep]
      exact h
  | resolveActivation ok =>
    have hstep : sysStep env s (.resolveActivation ok) = s := by
      cases ok <;> simp [sysStep, h.2.1]
    rw [hstep]
    exact h
  | cortexBatch results =>
    by_cases hsub : s.subscription = true
    · have hstep : sysStep env s (.cortexBatch results)
          = { s with lastResult := onDecodeResult results s.lastResult } := by
        simp [sysStep, hsub]
      rw [hstep]
      exact h
    · have hstep : sysStep env s (.cortexBatch results) = s := by
        simp [sysStep, hsub]
      rw [hstep]
      exact h
  | visionCodes codes =>
    by_cases hva : visionActive s = true
    · have hstep : sysStep env s (.visionCodes codes)
          = { s with lastResult := onCodeScanned codes s.lastResult } := by
        simp [sysStep, hva]
      rw [hstep]
      exact h
    · have hstep : sysStep env s (.visionCodes codes) = s := by
        simp [sysStep, hva]
      rw [hstep]
      exact h
  | unmount =>
    by_cases hmt : s.mounted = true
    · have hstep : sysStep env s .unmount = sysStopAll { s with mounted := false } := by
        simp [sysStep, hmt]
      rw [hstep]
      exact noKeyInv_stopAll _ h
    · have hstep : sysStep env s .unmount = s := by simp [sysStep, hmt]
      rw [hstep]
      exact h

theorem noKeyInv_mount (env : Env) (hk : env.licenseKey = none)
    (android hasPerm hasDev : Bool) (t : ScannerType) :
    NoKeyInv (mountScreen env android hasPerm hasDev t) := by
  unfold mountScreen
  exact noKeyInv_runEffect env _ hk ⟨rfl, rfl, rfl, by simp⟩

theorem noKeyInv_run (env : Env) (hk : env.licenseKey = none) :
    ∀ (acts : List Act) (s : Sys), NoKeyInv s → NoKeyInv (sysRun env s acts) := by
  intro acts
  induction acts with
  | nil => exact fun s h => h
  | cons a rest ih => exact fun s h => ih _ (noKeyInv_step env s a hk h)

/-! ## Claim C4 -/

/-- Claim C4 (confirmed): with no license key in the configuration, every
attempt to start the cortex backend throws `MissingCredential` before any
activation is attempted: the refs are untouched and the call trace of the
attempt is empty — no camera-start, preview-start, capture-enable or
decoding-enable call.  Moreover, across every schedule of the mounted screen,
the activated flag stays false and no `startCamera` call ever reaches the
trace. -/
theorem c4_missing_key_blocks_start (env : Env) (hk : env.licenseKey = none) :
    (∀ b sub : Bool,
      startCortex env b false sub = (false, sub, .error .missingCredential, []))
    ∧ (∀ (android hasPerm hasDev : Bool) (t : ScannerType) (acts : List Act),
        (sysRun env (mountScreen env android hasPerm hasDev t) acts).activated = false
        ∧ NCall.startCamera
            ∉ (sysRun env (mountScreen env android hasPerm hasDev t) acts).trace) := by
  constructor
  · intro b sub
    simp [startCortex, ensureLicenseActivated, hk]
  · intro android hasPerm hasDev t acts
    have h := noKeyInv_run env hk acts _
      (noKeyInv_mount env hk android hasPerm hasDev t)
    exact ⟨h.1, h.2.2.2⟩

/-- Witness for C4 at the concrete keyless environment. -/
theorem c4_missing_key_blocks_start_witness :
    (Env.mk none none).licenseKey = none
    ∧ startCortex ⟨none, none⟩ true false false
        = (false, false, .error .missingCredential, []) :=
  ⟨rfl, (c4_missing_key_blocks_start ⟨none, none⟩ rfl).1 true false⟩

/-! ## Claim C2 -/

/-- Claim C2 is right but the code violates it: React runs the
`[scannerType]` effect even when the render took the early blocking-message
return, so with the Android camera permission denied on entry the screen shows
only the blocking message, yet the cortex start is still issued — once the
activation call resolves, the camera-start, preview-start, capture-enable and
decoding-enable calls all go out while permission is still denied. -/
theorem c2_start_issued_while_permission_denied :
    showsBlockingMessage sampleDeniedMount = true
    ∧ showsBlockingMessage
        (sysRun sampleEnv sampleDeniedMount [.resolveActivation true]) = true
    ∧ (sysRun sampleEnv sampleDeniedMount
        [.resolveActivation true]).androidPermission = false
    ∧ NCall.startCamera
        ∈ (sysRun sampleEnv sampleDeniedMount [.resolveActivation true]).trace
    ∧ NCall.setDecoding true
        ∈ (sysRun sampleEnv sampleDeniedMount [.resolveActivation true]).trace
    ∧ (sysRun sampleEnv sampleDeniedMount
        [.resolveActivation true]).cortexActive = true := by
  refine ⟨rfl, rfl, rfl, ?_, ?_, rfl⟩ <;> decide

/-! ## Claim C3 -/

/-- Claim C3 (confirmed): with valid credentials (a usable — non-empty, the
source's falsy test — license key present and a succeeding activation call),
invoking `ensureLicenseActivated` N ≥ 1 times in sequence performs the
underlying `activateLicense` call exactly once, every invocation returns
success, and the flag ends true; once the flag is true, every call is an
immediate no-op issuing no SDK call at all. -/
theorem c3_activation_exactly_once (env : Env) (key : String) (n : Nat)
    (hk : env.licenseKey = some key) (hne : ¬key = "") (hn : 1 ≤ n) :
    (ensureIter env n false).snd.snd = true
    ∧ countActivate (ensureIter env n false).snd.fst = 1
    ∧ (ensureIter env n false).fst = true
    ∧ (∀ b : Bool, ensureLicenseActivated env b true = (true, .ok (), [])) := by
  obtain ⟨m, rfl⟩ : ∃ m, n = m + 1 := ⟨n - 1, by omega⟩
  have hfirst : ensureLicenseActivated env true false
      = (true, .ok (),
          [.setCustomerId (env.customerId.getD defaultCustomerId),
            .activateLicense key]) := by
    simp [ensureLicenseActivated, hk, hne]
  have hiter : ensureIter env (m + 1) false
      = (true,
          [.setCustomerId (env.customerId.getD defaultCustomerId),
            .activateLicense key], true) := by
    simp [ensureIter, hfirst, ensureIter_done, isOk]
  rw [hiter]
  refine ⟨rfl, ?_, rfl, fun b => by simp [ensureLicenseActivated]⟩
  simp [countActivate, List.countP_cons, List.countP_nil]

/-- Witness for C3: three sequential calls with the sample key perform one
activation. -/
theorem c3_activation_exactly_once_witness :
    sampleEnv.licenseKey = some "KEY" ∧ ¬("KEY" : String) = "" ∧ 1 ≤ 3
    ∧ countActivate (ensureIter sampleEnv 3 false).snd.fst = 1 :=
  ⟨rfl, by decide, by decide,
    (c3_activation_exactly_once sampleEnv "KEY" 3 rfl (by decide) (by decide)).2.1⟩

/-! ## Claim C6 -/

/-- Claim C6 (confirmed): the stop routine is total in every state — the
embedding returns a plain value because the source wraps the four native
teardown calls in a catch-all, whatever call throws (`failAt` arbitrary) and
whether or not anything was ever started (`sub` arbitrary); after any stop the
subscription ref is cleared, and a second consecutive stop leaves the ref
unchanged and performs no listener removal (a no-op on the controller
state). -/
theorem c6_stop_always_safe :
    ∀ (failAt1 failAt2 : Option Nat) (sub : Bool),
      (stopAll failAt1 sub).fst = false
      ∧ (stopAll failAt2 (stopAll failAt1 sub).fst).fst = (stopAll failAt1 sub).fst
      ∧ NCall.removeListener ∉ (stopAll failAt2 (stopAll failAt1 sub).fst).snd := by
  intro f1 f2 sub
  refine ⟨rfl, rfl, ?_⟩
  cases f2 with
  | none =>
    show NCall.removeListener ∉ (stopAll none false).snd
    decide
  | some i =>
    intro hmem
    have hmem2 : NCall.removeListener ∈ stopTryCalls.take i ++ ([] : List NCall) :=
      hmem
    have hsub : NCall.removeListener ∈ stopTryCalls := by
      refine List.take_subset i stopTryCalls ?_
      simpa using hmem2
    exact absurd hsub (by decide)

/-! ## Claim C7 -/

/-- Claim C7 as stated is false on the code: a batch whose first element is a
`Success` carrying empty text does change the visible result — the handler
overwrites `lastResult` with the empty string, which hides a previously
displayed result.  Concretely: with `"ABC"` displayed, the batch
`[{status: success, barcodeData: ""}]` changes the display from `some "ABC"`
to `none`, although its first element is not a success with non-empty text. -/
theorem c7_counterexample :
    displayedResult "ABC" = some "ABC"
    ∧ (⟨.success, ""⟩ : CDResultT).status = .success
    ∧ onDecodeResult [⟨.success, ""⟩] "ABC" = ""
    ∧ displayedResult (onDecodeResult [⟨.success, ""⟩] "ABC") = none := by
  exact ⟨rfl, rfl, rfl, rfl⟩

/-- Claim C7 (amended): only the first element of a batch is ever inspected.
For the cortex handler a non-success first element (or an empty batch) leaves
the stored result unchanged, and a success first element always overwrites the
stored result with its text — so a success with empty text clears a previously
displayed result instead of leaving it unchanged.  For the vision handler an
empty batch leaves the result unchanged and a non-empty batch stores the first
code's value (empty when absent).  Only non-empty text is actually
displayed. -/
theorem c7_first_element_rules :
    (∀ (r : CDResultT) (rest : List CDResultT) (last : String),
        onDecodeResult (r :: rest) last = onDecodeResult [r] last)
    ∧ (∀ (r : CDResultT) (rest : List CDResultT) (last : String),
        ¬r.status = .success → onDecodeResult (r :: rest) last = last)
    ∧ (∀ (r : CDResultT) (rest : List CDResultT) (last : String),
        r.status = .success → onDecodeResult (r :: rest) last = r.barcodeData)
    ∧ (∀ last : String, onDecodeResult [] last = last)
    ∧ (∀ last : String, onCodeScanned [] last = last)
    ∧ (∀ (c : Option String) (cs : List (Option String)) (last : String),
        onCodeScanned (c :: cs) last = c.getD "")
    ∧ (∀ text : String, ¬text = "" → displayedResult text = some text)
    ∧ displayedResult "" = none := by
  refine ⟨?_, ?_, ?_, fun _ => rfl, fun _ => rfl, fun _ _ _ => rfl, ?_, rfl⟩
  · intro r rest last
    simp [onDecodeResult]
  · intro r rest last hne
    simp [onDecodeResult, hne]
  · intro r rest last he
    simp [onDecodeResult, he]
  · intro text hne
    simp [displayedResult, hne]

/-- Witness for C7 (amended): a non-success first element masks a success
further down the batch and changes nothing. -/
theorem c7_first_element_rules_witness :
    ¬(⟨CDDecodeStatus.failure, "IGNORED"⟩ : CDResultT).status = .success
    ∧ onDecodeResult
        [⟨.failure, "IGNORED"⟩, ⟨.success, "XYZ"⟩] "ABC" = "ABC" :=
  ⟨by decide,
    c7_first_element_rules.2.1 ⟨.failure, "IGNORED"⟩ [⟨.success, "XYZ"⟩] "ABC"
      (by decide)⟩

/-! ## Claim C9 -/

/-- Claim C9 (confirmed): with a usable (non-empty) license key configured,
when the activation call itself fails the error propagates out of
`ensureLicenseActivated` to its caller, the activated flag stays false (it is
set only after a confirmed success), `startCortex` aborts with no listener
attach and no camera call, and the next invocation retries the activation
from scratch (the `activateLicense` call is issued again) and succeeds when
the call does. -/
theorem c9_activation_failure_retryable (env : Env) (key : String)
    (hk : env.licenseKey = some key) (hne : ¬key = "") :
    ensureLicenseActivated env false false
      = (false, .error .activationError,
          [.setCustomerId (env.customerId.getD defaultCustomerId),
            .activateLicense key])
    ∧ (∀ sub : Bool, startCortex env false false sub
        = (false, sub, .error .activationError,
            [.setCustomerId (env.customerId.getD defaultCustomerId),
              .activateLicense key]))
    ∧ ensureLicenseActivated env true false
      = (true, .ok (),
          [.setCustomerId (env.customerId.getD defaultCustomerId),
            .activateLicense key]) := by
  refine ⟨?_, fun sub => ?_, ?_⟩
  · simp [ensureLicenseActivated, hk, hne]
  · simp [startCortex, ensureLicenseActivated, hk, hne]
  · simp [ensureLicenseActivated, hk, hne]

/-- Witness for C9 at the sample environment. -/
theorem c9_activation_failure_retryable_witness :
    sampleEnv.licenseKey = some "KEY" ∧ ¬("KEY" : String) = ""
    ∧ ensureLicenseActivated sampleEnv false false
      = (false, .error .activationError,
          [.setCustomerId defaultCustomerId, .activateLicense "KEY"]) :=
  ⟨rfl, by decide,
    (c9_activation_failure_retryable sampleEnv "KEY" rfl (by decide)).1⟩

/-! ## Claim C10 -/

/-- Claim C10 (confirmed): in the explicit-lifecycle variant, the start button
sets the state to scanning before the asynchronous cortex start is awaited; if
`startCortex` throws (missing license key, or a failing activation with the
flag unset) the state stays `scanning` — it is not rolled back to idle — and
the attempt attaches no listener and enables no decoding. -/
theorem c10_no_rollback_on_start_failure (env : Env) (b : Bool) (s : BSess)
    (hfail : env.licenseKey = none ∨ b = false) (hact : s.activated = false) :
    (pressStart env b .cortex s).fst.state = .scanning
    ∧ isOk (pressStart env b .cortex s).snd.fst = false
    ∧ NCall.addListener ∉ (pressStart env b .cortex s).snd.snd
    ∧ NCall.setDecoding true ∉ (pressStart env b .cortex s).snd.snd
    ∧ (pressStart env b .cortex s).fst.subscription = s.subscription := by
  have hmain : ∀ (e : CErr) (tr : List NCall),
      startCortex env b s.activated s.subscription = (false, s.subscription, .error e, tr)
      → NCall.addListener ∉ tr → NCall.setDecoding true ∉ tr
      → (pressStart env b .cortex s).fst.state = .scanning
        ∧ isOk (pressStart env b .cortex s).snd.fst = false
        ∧ NCall.addListener ∉ (pressStart env b .cortex s).snd.snd
        ∧ NCall.setDecoding true ∉ (pressStart env b .cortex s).snd.snd
        ∧ (pressStart env b .cortex s).fst.subscription = s.subscription := by
    intro e tr heq hni1 hni2
    have hpress : pressStart env b .cortex s
        = ((⟨.scanning, "", false, s.subscription⟩ : BSess), .error e, tr) := by
      simp [pressStart, heq]
    rw [hpress]
    exact ⟨rfl, rfl, hni1, hni2, rfl⟩
  rcases hfail with hk | hb
  · refine hmain .missingCredential [] ?_ (by simp) (by simp)
    simp [startCortex, ensureLicenseActivated, hk, hact]
  · cases hk : env.licenseKey with
    | none =>
      refine hmain .missingCredential [] ?_ (by simp) (by simp)
      simp [startCortex, ensureLicenseActivated, hk, hact]
    | some key =>
      by_cases hke : key = ""
      · refine hmain .missingCredential [] ?_ (by simp) (by simp)
        simp [startCortex, ensureLicenseActivated, hk, hke, hact]
      · refine hmain .activationError
          [.setCustomerId (env.customerId.getD defaultCustomerId),
            .activateLicense key] ?_ (by simp) (by simp)
        simp [startCortex, ensureLicenseActivated, hk, hke, hact, hb]

/-- Witness for C10: pressing start with no key configured leaves the state
scanning. -/
theorem c10_no_rollback_on_start_failure_witness :
    ((⟨none, none⟩ : Env).licenseKey = none ∨ (true : Bool) = false)
    ∧ (⟨ScreenState.idle, "", false, false⟩ : BSess).activated = false
    ∧ (pressStart ⟨none, none⟩ true .cortex
        ⟨.idle, "", false, false⟩).fst.state = .scanning :=
  ⟨Or.inl rfl, rfl,
    (c10_no_rollback_on_start_failure ⟨none, none⟩ true
      ⟨.idle, "", false, false⟩ (Or.inl rfl) rfl).1⟩

end CortexDecoder
